import Mathlib

/-!
Verification development for the antigravity-quota-viewer quota monitoring
engine.  The TypeScript sources are shallowly embedded here:

* `QuotaViewer.InsightsService` — the analytics engine
  (`src/insights/insightsService.ts`): rolling history, burn rate,
  exhaustion prediction, active-model inference, health score.
* `QuotaViewer.QuotaService` — the polling client
  (`src/core/quotaService.ts`): response normalisation (`parseResponse`),
  duration formatting (`formatTime`), configuration and the retained
  snapshot under `poll`.
* `QuotaViewer.Platform` — the platform strategies
  (`src/core/platformStrategies.ts`): command-line flag extraction on the
  Unix and Windows variants.

Modelling conventions: JavaScript `number` is embedded as `ℚ` (exact
rational arithmetic in place of IEEE doubles), timestamps (`Date`) as
milliseconds-since-epoch integers (`ℤ`), JavaScript `Map` as an
insertion-ordered association list, and a thrown exception as
`Except.error`.  Ambient time (`Date.now()`) is passed explicitly as a
`now : ℤ` parameter.
-/

namespace QuotaViewer

/-- JavaScript `Math.round`: round half toward positive infinity. -/
def jsRound (q : ℚ) : ℤ := ⌊q + 1 / 2⌋

/-! ### Data model (src/types/index.ts) -/

/-- Normalised per-model quota record (`ModelQuota` in `src/types/index.ts`). -/
structure ModelQuota where
  label : String
  modelId : String
  remainingFraction : ℚ
  remainingPercent : ℚ
  isExhausted : Bool
  resetTime : ℤ
  timeUntilReset : ℤ
  timeUntilResetFormatted : String
deriving DecidableEq, Repr

/-- Credit balance (`PromptCredits` in `src/types/index.ts`). -/
structure PromptCredits where
  available : ℚ
  monthly : ℚ
  usedPercentage : ℚ
  remainingPercentage : ℚ
deriving DecidableEq, Repr

/-- One normalised poll result (`QuotaSnapshot` in `src/types/index.ts`). -/
structure QuotaSnapshot where
  timestamp : ℤ
  models : List ModelQuota
  promptCredits : Option PromptCredits
deriving DecidableEq, Repr

/-- Derived analytics for one model (`UsageInsight`).  `trendDirection`
holds one of "stable", "decreasing", "warning", "critical". -/
structure UsageInsight where
  burnRate : ℚ
  burnRateLabel : String
  predictedExhaustion : Option ℚ
  predictedExhaustionLabel : String
  trendDirection : String
  sessionUsage : ℚ
  isActive : Bool
deriving DecidableEq, Repr

/-- A model together with its insights (`ModelWithInsights`). -/
structure ModelWithInsights extends ModelQuota where
  insights : UsageInsight
deriving DecidableEq, Repr

/-- An enriched snapshot (`SnapshotWithInsights`). -/
structure SnapshotWithInsights extends QuotaSnapshot where
  modelsWithInsights : List ModelWithInsights
  overallHealth : ℤ
  healthLabel : String
  sessionStartTime : ℤ
  totalSessionUsage : ℤ
deriving DecidableEq, Repr

/-- One history record (`HistoryEntry`): a timestamp and the JavaScript
`Map\x7bstring, number\x7d` from model id to remaining percent, embedded as an
insertion-ordered association list. -/
structure HistoryEntry where
  timestamp : ℤ
  models : List (String × ℚ)
deriving DecidableEq, Repr

/-! Association-list embedding of the JavaScript `Map` operations used by
the insights service: `set` updates in place or appends, `get` returns the
value at the first (hence unique) matching key, `has` tests membership. -/

/-- JavaScript `Map.set`. -/
def mapSet (m : List (String × ℚ)) (k : String) (v : ℚ) : List (String × ℚ) :=
  if m.any (fun p => p.1 == k) then
    m.map (fun p => if p.1 == k then (k, v) else p)
  else
    m ++ [(k, v)]

/-- JavaScript `Map.get` (`none` models `undefined`). -/
def mapGet (m : List (String × ℚ)) (k : String) : Option ℚ :=
  (m.find? (fun p => p.1 == k)).map Prod.snd

/-- JavaScript `Map.has`. -/
def mapHas (m : List (String × ℚ)) (k : String) : Bool :=
  m.any (fun p => p.1 == k)

namespace InsightsService

/-- History capacity (`MAX_HISTORY` in `src/insights/insightsService.ts`). -/
def MAX_HISTORY : ℕ := 20

/-- Mutable state of one `InsightsService` instance. -/
structure State where
  history : List HistoryEntry
  sessionStartTime : ℤ
  sessionStartQuotas : List (String × ℚ)
  lastActiveModelId : Option String
deriving DecidableEq, Repr

/-- State of a freshly constructed `InsightsService`. -/
def State.initial (sessionStartTime : ℤ) : State :=
  { history := [], sessionStartTime, sessionStartQuotas := [], lastActiveModelId := none }

/-- The history entry built from a snapshot inside `recordSnapshot`. -/
def buildEntry (snapshot : QuotaSnapshot) : HistoryEntry :=
  { timestamp := snapshot.timestamp
    models := snapshot.models.foldl (fun acc m => mapSet acc m.modelId m.remainingPercent) [] }

/-- `InsightsService.recordSnapshot`: push the entry, then drop the oldest
entry when the history exceeds `MAX_HISTORY`. -/
def recordSnapshot (history : List HistoryEntry) (snapshot : QuotaSnapshot) :
    List HistoryEntry :=
  let h := history ++ [buildEntry snapshot]
  if MAX_HISTORY < h.length then h.tail else h

/-- `InsightsService.initSessionStart`: record a first-seen baseline percent
for every model id not yet present. -/
def initSessionStart (quotas : List (String × ℚ)) (snapshot : QuotaSnapshot) :
    List (String × ℚ) :=
  snapshot.models.foldl
    (fun acc m => if mapHas acc m.modelId then acc else mapSet acc m.modelId m.remainingPercent)
    quotas

/-- `InsightsService.calculateBurnRate`: consumption in percent per hour,
from the oldest and newest retained history entries. -/
def calculateBurnRate (history : List HistoryEntry) (modelId : String) : ℚ :=
  if history.length < 2 then 0 else
  match history.head?, history.getLast? with
  | some oldest, some newest =>
    match mapGet oldest.models modelId, mapGet newest.models modelId with
    | some oldValue, some newValue =>
      let deltaPercent := oldValue - newValue
      let deltaHours := ((newest.timestamp - oldest.timestamp : ℤ) : ℚ) / (1000 * 60 * 60)
      if deltaHours ≤ 0 then 0 else max 0 (deltaPercent / deltaHours)
    | _, _ => 0
  | _, _ => 0

/-- `InsightsService.calculateSessionUsage`. -/
def calculateSessionUsage (quotas : List (String × ℚ)) (modelId : String)
    (currentPercent : ℚ) : ℚ :=
  match mapGet quotas modelId with
  | none => 0
  | some startPercent => max 0 (startPercent - currentPercent)

/-- `InsightsService.detectActiveModel`: active when the burn rate exceeds
1 %/hour and equals the maximum burn rate over the snapshot (strategy 1),
or when the model is the remembered last active model (strategy 2). -/
def detectActiveModel (history : List HistoryEntry) (lastActiveModelId : Option String)
    (model : ModelQuota) (snapshot : QuotaSnapshot) : Bool :=
  let burnRate := calculateBurnRate history model.modelId
  if 1 < burnRate ∧
      (snapshot.models.map (fun m => calculateBurnRate history m.modelId)).maximum
        = some burnRate then
    true
  else
    lastActiveModelId == some model.modelId

/-- `InsightsService.getTrendDirection`. -/
def getTrendDirection (remainingPercent burnRate : ℚ) : String :=
  if remainingPercent ≤ 10 ∨ 20 < burnRate then "critical"
  else if remainingPercent ≤ 25 ∨ 10 < burnRate then "warning"
  else if 2 < burnRate then "decreasing"
  else "stable"

/-- `InsightsService.getBurnRateLabel`. -/
def getBurnRateLabel (burnRate : ℚ) : String :=
  if burnRate ≤ 1 / 2 then "Minimal"
  else if burnRate ≤ 2 then "Slow"
  else if burnRate ≤ 5 then "Moderate"
  else if burnRate ≤ 15 then "Fast"
  else "Very Fast"

/-- `InsightsService.formatPrediction`: label for an exhaustion forecast
given in hours. -/
def formatPrediction (hours : ℚ) : String :=
  if 48 < hours then
    "~" ++ toString ⌊hours / 24⌋ ++ "d"
  else if 1 < hours then
    let h := ⌊hours⌋
    let m := jsRound ((hours - h) * 60)
    if 0 < m then "~" ++ toString h ++ "h " ++ toString m ++ "m"
    else "~" ++ toString h ++ "h"
  else
    let mins := jsRound (hours * 60)
    if 0 < mins then "~" ++ toString mins ++ "m" else "<1m"

/-- `InsightsService.analyzeModel`.  Returns the enriched model together
with the updated `lastActiveModelId` (set to this model when it was found
active). -/
def analyzeModel (history : List HistoryEntry) (sessionStartQuotas : List (String × ℚ))
    (lastActiveModelId : Option String) (now : ℤ)
    (model : ModelQuota) (snapshot : QuotaSnapshot) :
    ModelWithInsights × Option String :=
  let burnRate := calculateBurnRate history model.modelId
  let sessionUsage := calculateSessionUsage sessionStartQuotas model.modelId model.remainingPercent
  let isActive := detectActiveModel history lastActiveModelId model snapshot
  let pred : Option ℚ × String :=
    if 0 < burnRate ∧ 0 < model.remainingPercent then
      let hoursUntilEmpty := model.remainingPercent / burnRate
      (some ((now : ℚ) + hoursUntilEmpty * (60 * 60 * 1000)), formatPrediction hoursUntilEmpty)
    else if model.isExhausted then (none, "Exhausted")
    else (none, "Safe")
  (⟨model,
    { burnRate
      burnRateLabel := getBurnRateLabel burnRate
      predictedExhaustion := pred.1
      predictedExhaustionLabel := pred.2
      trendDirection := getTrendDirection model.remainingPercent burnRate
      sessionUsage
      isActive }⟩,
   if isActive then some model.modelId else lastActiveModelId)

/-- The sequential `snapshot.models.map(model => this.analyzeModel(...))`
loop of `analyze`: `lastActiveModelId` is threaded through the calls,
because each `analyzeModel` call may update it before the next one runs. -/
def analyzeModels (history : List HistoryEntry) (sessionStartQuotas : List (String × ℚ))
    (now : ℤ) (snapshot : QuotaSnapshot) :
    Option String → List ModelQuota → List ModelWithInsights × Option String
  | lastActive, [] => ([], lastActive)
  | lastActive, m :: ms =>
    let step := analyzeModel history sessionStartQuotas lastActive now m snapshot
    let rest := analyzeModels history sessionStartQuotas now snapshot step.2 ms
    (step.1 :: rest.1, rest.2)

/-- Order of the `modelsWithInsights.sort` comparator: active models first,
then ascending remaining percent.  The comparator is consistent, so the
JavaScript stable sort produces exactly the stable insertion sort below. -/
def modelLe (a b : ModelWithInsights) : Prop :=
  (a.insights.isActive = true ∧ b.insights.isActive = false) ∨
  (a.insights.isActive = b.insights.isActive ∧ a.remainingPercent ≤ b.remainingPercent)

instance : DecidableRel modelLe := fun a b => by
  unfold modelLe; infer_instance

/-- The `modelsWithInsights.sort(...)` call of `analyze`. -/
def sortModels (l : List ModelWithInsights) : List ModelWithInsights :=
  List.insertionSort modelLe l

/-- `InsightsService.calculateOverallHealth`: weighted mean of remaining
percents, weight 3 for active models, rounded; 100/"Unknown" when there
are no models. -/
def calculateOverallHealth (models : List ModelWithInsights) : ℤ × String :=
  if models.isEmpty then (100, "Unknown") else
  let totalWeight := models.foldl
    (fun acc m => acc + (if m.insights.isActive then (3 : ℚ) else 1)) 0
  let weightedSum := models.foldl
    (fun acc m => acc + m.remainingPercent * (if m.insights.isActive then (3 : ℚ) else 1)) 0
  let overallHealth := jsRound (weightedSum / totalWeight)
  (overallHealth,
    if 75 ≤ overallHealth then "Excellent"
    else if 50 ≤ overallHealth then "Good"
    else if 25 ≤ overallHealth then "Low"
    else "Critical")

/-- `InsightsService.analyze`: record history, fix baselines, enrich every
model, sort, and aggregate.  Returns the enriched snapshot and the updated
service state. -/
def analyze (s : State) (snapshot : QuotaSnapshot) (now : ℤ) :
    SnapshotWithInsights × State :=
  let history := recordSnapshot s.history snapshot
  let sessionStartQuotas := initSessionStart s.sessionStartQuotas snapshot
  let step := analyzeModels history sessionStartQuotas now snapshot
    s.lastActiveModelId snapshot.models
  let sorted := sortModels step.1
  let health := calculateOverallHealth sorted
  let totalSessionUsage : ℚ :=
    if 0 < sorted.length then
      (sorted.foldl (fun acc m => acc + m.insights.sessionUsage) 0) / (sorted.length : ℚ)
    else 0
  (⟨snapshot, sorted, health.1, health.2, s.sessionStartTime, jsRound totalSessionUsage⟩,
   { history
     sessionStartTime := s.sessionStartTime
     sessionStartQuotas
     lastActiveModelId := step.2 })

end InsightsService

/-! ### Raw API response shape (`ServerUserStatusResponse` etc. in
src/types/index.ts).  Optional fields become `Option`; the upstream
`string | number` credit figures arrive already converted to `ℚ`
(`Number(...)` of an absent field yields `NaN`, on which every `>`
comparison is false — embedded as `none`, short-circuiting the same
branches).  The `resetTime` ISO string is embedded as the timestamp it
denotes. -/

/-- Raw `quotaInfo` entry of a model config. -/
structure RawQuotaInfo where
  remainingFraction : Option ℚ
  resetTime : Option ℤ
deriving DecidableEq, Repr

/-- Raw `modelOrAlias` entry of a model config. -/
structure RawModelOrAlias where
  model : Option String
deriving DecidableEq, Repr

/-- Raw model config (`RawModelConfig` in src/types/index.ts). -/
structure RawModelConfig where
  label : String
  modelOrAlias : Option RawModelOrAlias
  quotaInfo : Option RawQuotaInfo
deriving DecidableEq, Repr

/-- Raw `planInfo` section. -/
structure RawPlanInfo where
  monthlyPromptCredits : Option ℚ
deriving DecidableEq, Repr

/-- Raw `planStatus` section. -/
structure RawPlanStatus where
  planInfo : Option RawPlanInfo
  availablePromptCredits : Option ℚ
deriving DecidableEq, Repr

/-- Raw `cascadeModelConfigData` section. -/
structure RawCascadeData where
  clientModelConfigs : Option (List RawModelConfig)
deriving DecidableEq, Repr

/-- Raw `userStatus` object. -/
structure RawUserStatus where
  planStatus : Option RawPlanStatus
  cascadeModelConfigData : Option RawCascadeData
deriving DecidableEq, Repr

/-- Top-level raw response.  `userStatus` is `Option` because the parser
dereferences it unconditionally and throws on an empty response. -/
structure ServerUserStatusResponse where
  userStatus : Option RawUserStatus
deriving DecidableEq, Repr

namespace QuotaService

/-- Mutable state of one `QuotaService` instance. -/
structure State where
  port : ℤ
  csrfToken : String
  lastSnapshot : Option QuotaSnapshot
deriving DecidableEq, Repr

/-- State of a freshly constructed `QuotaService`. -/
def State.initial : State := { port := 0, csrfToken := "", lastSnapshot := none }

/-- `QuotaService.setConnection`. -/
def setConnection (s : State) (port : ℤ) (csrfToken : String) : State :=
  { s with port, csrfToken }

/-- `QuotaService.isConfigured`: true iff the port is positive and the
token is non-empty. -/
def isConfigured (s : State) : Bool :=
  (0 < s.port : Bool) && 0 < s.csrfToken.length

/-- `QuotaService.getSnapshot`. -/
def getSnapshot (s : State) : Option QuotaSnapshot := s.lastSnapshot

/-- `QuotaService.formatTime`: human-readable label for a duration in
milliseconds.  `(ms + 59999) / 60000` is `Math.ceil(ms / 60000)` for the
positive `ms` reaching it; the remaining divisions are `Math.floor` on
non-negative values. -/
def formatTime (ms : ℤ) : String :=
  if ms ≤ 0 then "Ready" else
  let mins := (ms + 59999) / 60000
  if mins < 60 then toString mins ++ "m" else
  let hours := mins / 60
  let remainingMins := mins % 60
  if hours < 24 then
    if 0 < remainingMins then toString hours ++ "h " ++ toString remainingMins ++ "m"
    else toString hours ++ "h"
  else
    let days := hours / 24
    let remainingHours := hours % 24
    if 0 < remainingHours then toString days ++ "d " ++ toString remainingHours ++ "h"
    else toString days ++ "d"

/-- Credits part of `QuotaService.parseResponse`: computed only when
`planInfo` and `availablePromptCredits` are both present and the monthly
figure converts to a number greater than zero. -/
def parseCredits (userStatus : RawUserStatus) : Option PromptCredits :=
  match userStatus.planStatus.bind (fun ps => ps.planInfo),
        userStatus.planStatus.bind (fun ps => ps.availablePromptCredits) with
  | some planInfo, some available =>
    match planInfo.monthlyPromptCredits with
    | some monthly =>
      if 0 < monthly then
        some { available
               monthly
               usedPercentage := (monthly - available) / monthly * 100
               remainingPercentage := available / monthly * 100 }
      else none
    | none => none
  | _, _ => none

/-- One model of `QuotaService.parseResponse`, for a raw entry whose
`quotaInfo` is present: `resetTime` defaults to now, `remainingFraction`
defaults to 1, and a missing or empty model identifier becomes
"unknown" (the `||` fallback). -/
def parseModelEntry (now : ℤ) (m : RawModelConfig) (qi : RawQuotaInfo) : ModelQuota :=
  let resetTime := qi.resetTime.getD now
  let diff := resetTime - now
  let remainingFraction := qi.remainingFraction.getD 1
  { label := m.label
    modelId :=
      match m.modelOrAlias.bind (fun a => a.model) with
      | some s => if s = "" then "unknown" else s
      | none => "unknown"
    remainingFraction
    remainingPercent := (jsRound (remainingFraction * 100) : ℚ)
    isExhausted := remainingFraction == 0
    resetTime
    timeUntilReset := diff
    timeUntilResetFormatted := formatTime diff }

/-- `QuotaService.parseResponse`: `Except.error` models the exception the
parser throws when `userStatus` is missing; raw entries without
`quotaInfo` are dropped. -/
def parseResponse (now : ℤ) (data : ServerUserStatusResponse) :
    Except String QuotaSnapshot :=
  match data.userStatus with
  | none => .error "cannot read properties of undefined"
  | some userStatus =>
    let rawModels := (userStatus.cascadeModelConfigData.bind
      (fun d => d.clientModelConfigs)).getD []
    .ok { timestamp := now
          models := rawModels.filterMap (fun m => m.quotaInfo.map (parseModelEntry now m))
          promptCredits := parseCredits userStatus }

/-- Outcome of the HTTPS request made by `poll`, seen from the response
handler: a transport error or timeout, a body that is not valid JSON, or
a decoded response object. -/
inductive PollOutcome where
  | transportFailure (message : String)
  | invalidJson
  | response (data : ServerUserStatusResponse)
deriving DecidableEq, Repr

/-- `QuotaService.poll`: fail when unconfigured, on transport failure, on
undecodable JSON, or when parsing throws; only a fully successful
poll-and-parse replaces `lastSnapshot`. -/
def poll (s : State) (outcome : PollOutcome) (now : ℤ) :
    Except String (List ModelQuota) × State :=
  if !isConfigured s then (.error "QuotaService not configured", s)
  else
    match outcome with
    | .transportFailure message => (.error message, s)
    | .invalidJson => (.error "Invalid JSON response", s)
    | .response data =>
      match parseResponse now data with
      | .error e => (.error e, s)
      | .ok snapshot => (.ok snapshot.models, { s with lastSnapshot := some snapshot })

end QuotaService

namespace Platform

/-! ### Platform strategies (src/core/platformStrategies.ts)

The command-line flag regexes are embedded as explicit scanners over
character lists.  Each regex here has the shape
`flag[=\s]+(CLASS+)` with a character class disjoint from `[=\s]`, so the
leftmost-match semantics reduces to: try every start position from the
left; at a position, the literal flag must match, then one or more
separator characters, then one or more class characters (backtracking
inside `[=\s]+` can never rescue a failed match because the classes are
disjoint). -/

/-- Whitespace class (`\s` for the inputs at hand). -/
def isWsChar (c : Char) : Bool :=
  c == ' ' || c == '\t' || c == '\n' || c == '\r'

/-- Separator class `[=\s]` of the flag regexes. -/
def flagSepChar (c : Char) : Bool :=
  c == '=' || isWsChar c

/-- Literal match of `pat` at the front of `cs`, optionally ASCII
case-insensitive (`ci`). -/
def matchLit (ci : Bool) : List Char → List Char → Bool
  | [], _ => true
  | _ :: _, [] => false
  | p :: ps, c :: cs =>
    (if ci then p.toLower == c.toLower else p == c) && matchLit ci ps cs

/-- Match `flag[=\s]+(tok+)` anchored at the front of `cs`, returning the
captured group. -/
def tryFlagAt (ci : Bool) (flag : List Char) (tok : Char → Bool) (cs : List Char) :
    Option (List Char) :=
  if matchLit ci flag cs then
    let rest := cs.drop flag.length
    let seps := rest.takeWhile flagSepChar
    if seps.isEmpty then none
    else
      let toks := (rest.drop seps.length).takeWhile tok
      if toks.isEmpty then none else some toks
  else none

/-- Leftmost match of `flag[=\s]+(tok+)` in `cs` (the `String.match`
call on the regex), returning the captured group. -/
def scanFlag (ci : Bool) (flag : List Char) (tok : Char → Bool) :
    List Char → Option (List Char)
  | [] => none
  | c :: cs =>
    match tryFlagAt ci flag tok (c :: cs) with
    | some v => some v
    | none => scanFlag ci flag tok cs

/-- Substring test (`String.includes`). -/
def containsLit (pat : List Char) : List Char → Bool
  | [] => pat.isEmpty
  | c :: cs => pat.isPrefixOf (c :: cs) || containsLit pat cs

/-- Decimal digit run to a natural number. -/
def digitsToNat (ds : List Char) : ℕ :=
  ds.foldl (fun acc c => 10 * acc + (c.toNat - '0'.toNat)) 0

/-- JavaScript `parseInt(s, 10)`: optional sign then a leading digit run;
`none` models `NaN`. -/
def parseIntDec (cs : List Char) : Option ℤ :=
  let cs := cs.dropWhile isWsChar
  let sign : ℤ := if cs.headD ' ' == '-' then -1 else 1
  let cs := if cs.headD ' ' == '-' || cs.headD ' ' == '+' then cs.tail else cs
  let ds := cs.takeWhile Char.isDigit
  if ds.isEmpty then none else some (sign * (digitsToNat ds : ℤ))

/-- Trim of leading and trailing whitespace (`String.trim`). -/
def trimChars (cs : List Char) : List Char :=
  ((cs.dropWhile isWsChar).reverse.dropWhile isWsChar).reverse

/-- Split into maximal non-whitespace runs (`trimmed.split(/\s+/)` on an
already-trimmed string). -/
def splitWsRuns (cs : List Char) : List (List Char) :=
  (cs.splitOnP (fun c => isWsChar c)).filter (fun l => !l.isEmpty)

/-- Split on newlines (`String.split('\n')`). -/
def splitLines (cs : List Char) : List (List Char) :=
  cs.splitOnP (fun c => c == '\n')

/-- Flag literal `--extension_server_port`. -/
def extPortFlag : List Char := "--extension_server_port".toList

/-- Flag literal `--csrf_token`. -/
def csrfFlag : List Char := "--csrf_token".toList

/-- Character class `[a-zA-Z0-9-]` of the Unix token regex. -/
def unixTokChar (c : Char) : Bool := c.isAlphanum || c == '-'

/-- Character class `[a-f0-9-]` with the `i` flag, of the Windows token
regex. -/
def winTokChar (c : Char) : Bool :=
  ('a' ≤ c.toLower && c.toLower ≤ 'f') || c.isDigit || c == '-'

/-- Result of `parseProcessInfo` (`pid`, announced extension port, csrf
token); `pid = none` models `NaN`. -/
structure ParsedProcess where
  pid : Option ℤ
  extensionPort : ℤ
  csrfToken : String
deriving DecidableEq, Repr

/-- Per-line body of `UnixStrategy.parseProcessInfo` for a line that
contains the extension-port flag: split the trimmed line on whitespace,
parse the pid from the first token, and extract the port and csrf flags
from the rest of the line; a missing csrf flag yields the empty token. -/
def unixParseLine (line : List Char) : ParsedProcess :=
  let parts := splitWsRuns (trimChars line)
  let first := parts.headD []
  let cmd := trimChars (line.drop first.length)
  { pid := parseIntDec first
    extensionPort :=
      match scanFlag false extPortFlag Char.isDigit cmd with
      | some ds => (digitsToNat ds : ℤ)
      | none => 0
    csrfToken :=
      match scanFlag false csrfFlag unixTokChar cmd with
      | some ts => String.mk ts
      | none => "" }

/-- `UnixStrategy.parseProcessInfo`: the first line containing the
extension-port flag is parsed; without such a line there is no match. -/
def unixParseProcessInfo (stdout : List Char) : Option ParsedProcess :=
  match (splitLines stdout).find? (fun l => containsLit extPortFlag l) with
  | some line => some (unixParseLine line)
  | none => none

/-- Word boundary class (`\b` is a transition to a non-word character). -/
def wordChar (c : Char) : Bool := c.isAlphanum || c == '_'

/-- Literal `--app_data_dir` of `isAntigravityProcess`. -/
def appDataFlag : List Char := "--app_data_dir".toList

/-- Literal `antigravity` of `isAntigravityProcess`. -/
def antigravityWord : List Char := "antigravity".toList

/-- Anchored match of `--app_data_dir\s+antigravity\b` (case-insensitive). -/
def tryAppDataAt (cs : List Char) : Bool :=
  if matchLit true appDataFlag cs then
    let rest := cs.drop appDataFlag.length
    let ws := rest.takeWhile isWsChar
    if ws.isEmpty then false
    else
      let rest2 := rest.drop ws.length
      if matchLit true antigravityWord rest2 then
        match rest2.drop antigravityWord.length with
        | [] => true
        | c :: _ => !wordChar c
      else false
  else false

/-- Leftmost match of `--app_data_dir\s+antigravity\b/i`. -/
def scanAppData : List Char → Bool
  | [] => false
  | c :: cs => tryAppDataAt (c :: cs) || scanAppData cs

/-- `WindowsStrategy.isAntigravityProcess`: the dedicated launch flag, or
an install-path fragment in the lower-cased command line. -/
def isAntigravityProcess (commandLine : List Char) : Bool :=
  let lowerCmd := commandLine.map Char.toLower
  scanAppData commandLine ||
    containsLit "\\antigravity\\".toList lowerCmd ||
    containsLit "/antigravity/".toList lowerCmd

/-- One record of the PowerShell `ConvertTo-Json` process list, after JSON
decoding. -/
structure WinProcRecord where
  ProcessId : Option ℤ
  CommandLine : Option (List Char)
deriving DecidableEq, Repr

/-- The PowerShell JSON-array branch of `WindowsStrategy.parseProcessInfo`
(after `JSON.parse`): keep records whose command line passes the
Antigravity filter, take the first, and reject it unless both a valid
process id and a csrf-token flag are present. -/
def windowsParseRecords (records : List WinProcRecord) : Option ParsedProcess :=
  if records.isEmpty then none
  else
    let ag := records.filter (fun r =>
      match r.CommandLine with
      | some c => !c.isEmpty && isAntigravityProcess c
      | none => false)
    match ag with
    | [] => none
    | r :: _ =>
      let commandLine := r.CommandLine.getD []
      match r.ProcessId with
      | none => none
      | some pid =>
        if pid == 0 then none
        else
          match scanFlag true csrfFlag winTokChar commandLine with
          | none => none
          | some tok =>
            some { pid := some pid
                   extensionPort :=
                     match scanFlag false extPortFlag Char.isDigit commandLine with
                     | some ds => (digitsToNat ds : ℤ)
                     | none => 0
                   csrfToken := String.mk tok }

end Platform

/-! ## Claim C3: burn-rate formula -/

open InsightsService in
/-- C3: the burn rate computed during analyze is `0` whenever the history
has fewer than two entries, the resource id is absent from the oldest or
the newest retained entry, or the elapsed time is not positive; otherwise
it equals `max 0 ((oldestPercent - newestPercent) / elapsedHours)`; and it
is nonnegative in every case. -/
theorem c3_burn_rate (history : List HistoryEntry) (modelId : String) :
    0 ≤ calculateBurnRate history modelId
    ∧ (history.length < 2 → calculateBurnRate history modelId = 0)
    ∧ (∀ oldest newest, 2 ≤ history.length →
        history.head? = some oldest → history.getLast? = some newest →
        ((mapGet oldest.models modelId = none ∨ mapGet newest.models modelId = none) →
          calculateBurnRate history modelId = 0)
        ∧ (∀ oldValue newValue,
            mapGet oldest.models modelId = some oldValue →
            mapGet newest.models modelId = some newValue →
            (newest.timestamp ≤ oldest.timestamp → calculateBurnRate history modelId = 0)
            ∧ (oldest.timestamp < newest.timestamp →
                calculateBurnRate history modelId =
                  max 0 ((oldValue - newValue) /
                    (((newest.timestamp - oldest.timestamp : ℤ) : ℚ) / (1000 * 60 * 60)))))) := by
  have hiff : ∀ a b : ℤ, (((a - b : ℤ) : ℚ) / (1000 * 60 * 60) ≤ 0 ↔ a ≤ b) := by
    intro a b
    rw [div_nonpos_iff]
    constructor
    · rintro (⟨-, h⟩ | ⟨h, -⟩)
      · norm_num at h
      · have : ((a - b : ℤ) : ℚ) ≤ 0 := h
        exact_mod_cast sub_nonpos.mp (by exact_mod_cast this)
    · intro h
      right
      constructor
      · exact_mod_cast sub_nonpos.mpr (show (a : ℚ) ≤ b by exact_mod_cast h)
      · norm_num
  refine ⟨?_, ?_, ?_⟩
  · unfold calculateBurnRate
    split
    · exact le_refl 0
    · split
      · split
        · dsimp only
          split
          · exact le_refl 0
          · exact le_max_left 0 _
        · exact le_refl 0
      · exact le_refl 0
  · intro h
    unfold calculateBurnRate
    rw [if_pos h]
  · intro oldest newest hlen hhead hlast
    have hnotlt : ¬ history.length < 2 := by omega
    constructor
    · intro habs
      rcases habs with h | h <;>
        (simp only [calculateBurnRate, if_neg hnotlt, hhead, hlast, h]
         all_goals (split <;> simp_all))
    · intro oldValue newValue hov hnv
      have hred : calculateBurnRate history modelId =
          if (((newest.timestamp - oldest.timestamp : ℤ) : ℚ) / (1000 * 60 * 60)) ≤ 0 then 0
          else max 0 ((oldValue - newValue) /
            (((newest.timestamp - oldest.timestamp : ℤ) : ℚ) / (1000 * 60 * 60))) := by
        simp only [calculateBurnRate, if_neg hnotlt, hhead, hlast, hov, hnv]
      constructor
      · intro hts
        rw [hred, if_pos ((hiff _ _).mpr hts)]
      · intro hts
        have hcond : ¬ ((((newest.timestamp - oldest.timestamp : ℤ) : ℚ) / (1000 * 60 * 60)) ≤ 0) := by
          rw [hiff]; omega
        rw [hred, if_neg hcond]

/-- Witness for C3 at a concrete history: two entries one hour apart with
the percent of "A" falling from 80 to 70 give burn rate
`max 0 (10 / 1) = 10` %/hour, and the rate is nonnegative. -/
theorem c3_burn_rate_witness :
    0 ≤ InsightsService.calculateBurnRate
        [⟨0, [("A", 80)]⟩, ⟨3600000, [("A", 70)]⟩] "A"
    ∧ InsightsService.calculateBurnRate
        [⟨0, [("A", 80)]⟩, ⟨3600000, [("A", 70)]⟩] "A"
      = max 0 ((80 - 70) / (((3600000 - 0 : ℤ) : ℚ) / (1000 * 60 * 60))) := by
  refine ⟨(c3_burn_rate _ "A").1, ?_⟩
  exact (((c3_burn_rate [⟨0, [("A", 80)]⟩, ⟨3600000, [("A", 70)]⟩] "A").2.2
      ⟨0, [("A", 80)]⟩ ⟨3600000, [("A", 70)]⟩ (by decide) rfl rfl).2
      80 70 rfl rfl).2 (by decide)

/-! ## Claim C8: duration formatting -/

open QuotaService in
/-- Reading of claim C8 with its branch thresholds taken on the raw
duration (modelled from the claim: minutes rounded up when the duration
is under an hour, hours and leftover minutes when under a day, days and
leftover hours beyond); the arithmetic inside each branch is that of
`formatTime`. -/
def formatTimeClaimed (ms : ℤ) : String :=
  if ms ≤ 0 then "Ready" else
  let mins := (ms + 59999) / 60000
  if ms < 3600000 then toString mins ++ "m" else
  let hours := mins / 60
  let remainingMins := mins % 60
  if ms < 86400000 then
    if 0 < remainingMins then toString hours ++ "h " ++ toString remainingMins ++ "m"
    else toString hours ++ "h"
  else
    let days := hours / 24
    let remainingHours := hours % 24
    if 0 < remainingHours then toString days ++ "d " ++ toString remainingHours ++ "h"
    else toString days ++ "d"

/-- Counterexample to C8 as stated: 3,550,000 ms is under an hour, but its
rounded-up minute count is 60, so `formatTime` takes the hour branch and
returns "1h" where the claimed duration-threshold reading yields "60m". -/
theorem c8_counterexample :
    QuotaService.formatTime 3550000 = "1h"
    ∧ formatTimeClaimed 3550000 = "60m"
    ∧ QuotaService.formatTime 3550000 ≠ formatTimeClaimed 3550000 := by
  refine ⟨by decide, by decide, by decide⟩

open QuotaService in
/-- C8 as amended: branch selection follows the rounded-up minute count
`m` (equivalently its derived hour count), not the raw duration: `"Ready"`
for durations that are not positive, `m` minutes while `m < 60`, hours
with leftover minutes while `m < 1440`, days with leftover hours beyond;
the three examples of the claim hold as stated. -/
theorem c8_format_time :
    (∀ ms : ℤ, ms ≤ 0 → formatTime ms = "Ready")
    ∧ (∀ ms mins : ℤ, 0 < ms →
        (mins - 1) * 60000 < ms → ms ≤ mins * 60000 →
        (mins < 60 → formatTime ms = toString mins ++ "m")
        ∧ (60 ≤ mins → mins < 1440 →
            formatTime ms =
              if 0 < mins % 60 then toString (mins / 60) ++ "h " ++ toString (mins % 60) ++ "m"
              else toString (mins / 60) ++ "h")
        ∧ (1440 ≤ mins →
            formatTime ms =
              if 0 < (mins / 60) % 24 then
                toString (mins / 60 / 24) ++ "d " ++ toString ((mins / 60) % 24) ++ "h"
              else toString (mins / 60 / 24) ++ "d"))
    ∧ formatTime 3540000 = "59m"
    ∧ formatTime 7260000 = "2h 1m"
    ∧ formatTime 90000000 = "1d 1h" := by
  refine ⟨?_, ?_, by decide, by decide, by decide⟩
  · intro ms h
    unfold formatTime
    rw [if_pos h]
  · intro ms mins hpos hlo hhi
    have hmins : (ms + 59999) / 60000 = mins := by omega
    have hnot : ¬ ms ≤ 0 := by omega
    refine ⟨?_, ?_, ?_⟩
    · intro hlt
      simp only [formatTime, if_neg hnot, hmins, if_pos hlt]
    · intro h60 h1440
      simp only [formatTime, if_neg hnot, hmins, if_neg (show ¬ mins < 60 by omega),
        if_pos (show mins / 60 < 24 by omega)]
    · intro h1440
      simp only [formatTime, if_neg hnot, hmins, if_neg (show ¬ mins < 60 by omega),
        if_neg (show ¬ mins / 60 < 24 by omega)]

/-- Witness for C8 at a concrete duration: 3,540,000 ms has 59 rounded-up
minutes and formats to "59m"; 0 ms formats to "Ready". -/
theorem c8_format_time_witness :
    QuotaService.formatTime 0 = "Ready"
    ∧ QuotaService.formatTime 3540000 = "59m" := by
  refine ⟨c8_format_time.1 0 (by decide), ?_⟩
  exact (c8_format_time.2.1 3540000 59 (by decide) (by decide) (by decide)).1 (by decide)

/-! ## Claim C5: remaining percent and exhaustion flag -/

open QuotaService in
/-- C5: a normalised raw entry with quota info and remaining fraction `f`
(defaulted to 1 when absent) in `[0, 1]` gets
`remainingPercent = round (100 * f)` and is exhausted exactly when
`f = 0`. -/
theorem c5_percent_exhaustion (now : ℤ) (m : RawModelConfig) (qi : RawQuotaInfo)
    (h0 : 0 ≤ qi.remainingFraction.getD 1) (h1 : qi.remainingFraction.getD 1 ≤ 1) :
    (parseModelEntry now m qi).remainingPercent
      = (jsRound (100 * qi.remainingFraction.getD 1) : ℚ)
    ∧ ((parseModelEntry now m qi).isExhausted = true ↔ qi.remainingFraction.getD 1 = 0) := by
  constructor
  · simp only [parseModelEntry, mul_comm]
  · simp only [parseModelEntry, beq_iff_eq]

/-- C5 concrete input: the witness model config used below. -/
def c5_rawModel : RawModelConfig :=
  { label := "Claude 3.5 Sonnet"
    modelOrAlias := some { model := some "anthropic/claude-3.5-sonnet" }
    quotaInfo := some { remainingFraction := some (3 / 4), resetTime := some 3600000 } }

open QuotaService in
/-- Witness for C5 at fraction 3/4: the hypotheses hold and the parsed
model has `remainingPercent = round 75 = 75` and is not exhausted. -/
theorem c5_percent_exhaustion_witness :
    0 ≤ ((3 : ℚ) / 4) ∧ ((3 : ℚ) / 4) ≤ 1
    ∧ (parseModelEntry 0 c5_rawModel { remainingFraction := some (3 / 4), resetTime := some 3600000 }).remainingPercent
        = (jsRound (100 * ((3 : ℚ) / 4)) : ℚ)
    ∧ ((parseModelEntry 0 c5_rawModel { remainingFraction := some (3 / 4), resetTime := some 3600000 }).isExhausted = true
        ↔ ((3 : ℚ) / 4) = 0) := by
  refine ⟨by norm_num, by norm_num, ?_, ?_⟩
  · exact (c5_percent_exhaustion 0 c5_rawModel _ (by norm_num) (by norm_num)).1
  · exact (c5_percent_exhaustion 0 c5_rawModel _ (by norm_num) (by norm_num)).2

/-! ## Claim C7: credit balance -/

/-- C7 concrete input: a raw user status with monthly credits 500 and
available credits 350. -/
def c7_userStatus : RawUserStatus :=
  { planStatus := some { planInfo := some { monthlyPromptCredits := some 500 }
                         availablePromptCredits := some 350 }
    cascadeModelConfigData := none }

open QuotaService in
/-- C7: a parsed snapshot carries prompt credits exactly when the raw
response provides both a monthly figure and an available figure with the
monthly figure positive; the snapshot's credits are those computed from
the raw user status; and monthly 500 with available 350 yields 30 % used
and 70 % remaining. -/
theorem c7_prompt_credits :
    (∀ us : RawUserStatus,
      (parseCredits us).isSome = true ↔
        (∃ monthly,
          (us.planStatus.bind (fun ps => ps.planInfo)).bind
              (fun info => info.monthlyPromptCredits) = some monthly
          ∧ 0 < monthly
          ∧ (us.planStatus.bind (fun ps => ps.availablePromptCredits)).isSome = true))
    ∧ (∀ (now : ℤ) (data : ServerUserStatusResponse) (snap : QuotaSnapshot),
        parseResponse now data = Except.ok snap →
        ∀ us, data.userStatus = some us → snap.promptCredits = parseCredits us)
    ∧ parseCredits c7_userStatus
      = some { available := 350, monthly := 500, usedPercentage := 30, remainingPercentage := 70 } := by
  refine ⟨?_, ?_, ?_⟩
  · intro us
    rcases h1 : us.planStatus.bind (fun ps => ps.planInfo) with _ | pinfo <;>
      rcases h2 : us.planStatus.bind (fun ps => ps.availablePromptCredits) with _ | avail
    · simp [parseCredits, h1, h2]
    · simp [parseCredits, h1, h2]
    · simp [parseCredits, h1, h2]
    · rcases h3 : pinfo.monthlyPromptCredits with _ | monthly
      · simp [parseCredits, h1, h2, h3]
      · by_cases hm : 0 < monthly <;> simp [parseCredits, h1, h2, h3, hm]
  · intro now data snap h us hus
    rw [parseResponse, hus] at h
    rw [← Except.ok.inj h]
  · norm_num [parseCredits, c7_userStatus]

/-- Witness for C7: a concrete response with monthly 500 and available 350
parses to a snapshot whose credits are exactly the parsed credits of its
user status. -/
theorem c7_prompt_credits_witness :
    QuotaService.parseResponse 0 ⟨some c7_userStatus⟩
      = Except.ok ⟨0, [], QuotaService.parseCredits c7_userStatus⟩
    ∧ (QuotaSnapshot.mk 0 [] (QuotaService.parseCredits c7_userStatus)).promptCredits
      = QuotaService.parseCredits c7_userStatus :=
  ⟨rfl, c7_prompt_credits.2.1 0 ⟨some c7_userStatus⟩
    ⟨0, [], QuotaService.parseCredits c7_userStatus⟩ rfl c7_userStatus rfl⟩

/-! ## Claim C9: failed polls keep the last snapshot -/

open QuotaService in
/-- C9: whenever `poll` reports an error — unconfigured service, transport
failure or timeout, undecodable body, or a response rejected by the
parser — the retained snapshot is unchanged. -/
theorem c9_poll_error_keeps_snapshot (s : QuotaService.State)
    (outcome : QuotaService.PollOutcome) (now : ℤ) (e : String)
    (h : (poll s outcome now).1 = Except.error e) :
    getSnapshot (poll s outcome now).2 = getSnapshot s := by
  unfold poll
  by_cases hc : isConfigured s = true
  · simp only [hc, Bool.not_true, Bool.false_eq_true, if_false]
    cases outcome with
    | transportFailure message => rfl
    | invalidJson => rfl
    | response data =>
      rcases hp : parseResponse now data with err | snap
      · simp [hp]
      · exfalso
        rw [poll, if_neg (by simp [hc])] at h
        rw [hp] at h
        simp at h
  · have hc' : (!isConfigured s) = true := by simp [Bool.eq_false_iff.mpr hc]
    simp [hc']

/-- Witness for C9: polling an unconfigured service fails with the
configuration error and leaves the (empty) retained snapshot in place. -/
theorem c9_poll_error_keeps_snapshot_witness :
    (QuotaService.poll QuotaService.State.initial QuotaService.PollOutcome.invalidJson 0).1
      = Except.error "QuotaService not configured"
    ∧ QuotaService.getSnapshot
        (QuotaService.poll QuotaService.State.initial QuotaService.PollOutcome.invalidJson 0).2
      = QuotaService.getSnapshot QuotaService.State.initial :=
  ⟨rfl, c9_poll_error_keeps_snapshot _ _ 0 _ rfl⟩

/-! ## Claim C6: bounded FIFO history -/

/-- Helper: `analyze` changes the history exactly by `recordSnapshot`. -/
lemma analyze_snd_history (s : InsightsService.State) (snapshot : QuotaSnapshot) (now : ℤ) :
    (InsightsService.analyze s snapshot now).2.history
      = InsightsService.recordSnapshot s.history snapshot := rfl

open InsightsService in
/-- Helper: shape of the history after folding `analyze` over a list of
snapshots, starting from a history within capacity: the concatenated
entry list with everything beyond the final 20 entries dropped from the
front. -/
lemma analyze_foldl_history (snaps : List QuotaSnapshot) :
    ∀ s : State, s.history.length ≤ MAX_HISTORY →
      ((snaps.foldl (fun s snap => (analyze s snap snap.timestamp).2) s).history)
        = (s.history ++ snaps.map buildEntry).drop
            ((s.history.length + snaps.length) - MAX_HISTORY) := by
  induction snaps with
  | nil =>
    intro s hs
    simp only [List.foldl_nil, List.map_nil, List.append_nil, List.length_nil, Nat.add_zero]
    rw [show s.history.length - MAX_HISTORY = 0 by
          simp only [MAX_HISTORY] at hs ⊢; omega,
        List.drop_zero]
  | cons x xs ih =>
    intro s hs
    rw [List.foldl_cons]
    have hrec : (analyze s x x.timestamp).2.history = recordSnapshot s.history x :=
      analyze_snd_history s x x.timestamp
    have hlen : (recordSnapshot s.history x).length ≤ MAX_HISTORY := by
      unfold recordSnapshot
      simp only [MAX_HISTORY] at hs ⊢
      split <;> rename_i hc <;>
        simp only [List.length_tail, List.length_append, List.length_singleton] at hc ⊢ <;>
        omega
    have hshape : recordSnapshot s.history x
        = (s.history ++ [buildEntry x]).drop ((s.history.length + 1) - MAX_HISTORY) := by
      unfold recordSnapshot
      simp only [MAX_HISTORY] at hs ⊢
      split <;> rename_i hc <;>
        simp only [List.length_append, List.length_singleton] at hc
      · rw [show s.history.length + 1 - 20 = 1 by omega, List.drop_one]
      · rw [show s.history.length + 1 - 20 = 0 by omega, List.drop_zero]
    have hd1 : (s.history.length + 1) - MAX_HISTORY ≤ (s.history ++ [buildEntry x]).length := by
      simp only [MAX_HISTORY, List.length_append, List.length_singleton]
      omega
    have hmain := ih ((analyze s x x.timestamp).2) (by rw [hrec]; exact hlen)
    rw [hmain, hrec, hshape, ← List.drop_append_of_le_length hd1, List.drop_drop,
        List.append_assoc]
    have hmap : [buildEntry x] ++ List.map buildEntry xs = List.map buildEntry (x :: xs) := by
      simp
    rw [hmap]
    congr 1
    have hsl : s.history.length ≤ 20 := by simpa [MAX_HISTORY] using hs
    clear hmain hrec hshape hlen hd1 hs hmap ih
    simp only [List.length_drop, List.length_append, List.length_singleton, List.length_nil,
      List.length_map, List.length_cons, MAX_HISTORY]
    omega

open InsightsService in
/-- C6: the analytics history is a bounded FIFO — any analyze call on a
state within the 20-entry capacity stays within it, and folding analyze
over 25 snapshots from a fresh engine leaves exactly the most recent 20
history entries in insertion order (the 5 oldest evicted). -/
theorem c6_history_fifo :
    (∀ (s : State) (snapshot : QuotaSnapshot) (now : ℤ),
      s.history.length ≤ 20 → ((analyze s snapshot now).2.history.length ≤ 20))
    ∧ (∀ (t0 : ℤ) (snaps : List QuotaSnapshot), snaps.length = 25 →
        ((snaps.foldl (fun s snap => (analyze s snap snap.timestamp).2)
            (State.initial t0)).history)
          = (snaps.drop 5).map buildEntry) := by
  constructor
  · intro s snapshot now hs
    rw [analyze_snd_history]
    unfold recordSnapshot
    simp only [MAX_HISTORY]
    split <;> rename_i hc <;>
      simp only [List.length_tail, List.length_append, List.length_singleton] at hc ⊢ <;>
      omega
  · intro t0 snaps hlen
    rw [analyze_foldl_history snaps (State.initial t0) (by simp [State.initial, MAX_HISTORY])]
    simp only [State.initial, List.nil_append, List.length_nil, Nat.zero_add, hlen,
      MAX_HISTORY]
    rw [show 25 - 20 = 5 from rfl]
    exact (List.map_drop ..).symm

/-- C6 concrete input: 25 snapshots with timestamps 0 to 24 and no models. -/
def c6_snaps : List QuotaSnapshot :=
  (List.range 25).map
    (fun i => { timestamp := (i : ℤ), models := [], promptCredits := none })

/-- Witness for C6: one analyze call on a fresh engine keeps the history
within capacity, and 25 concrete snapshots leave exactly the entries of
the last 20 of them. -/
theorem c6_history_fifo_witness :
    ((InsightsService.analyze (InsightsService.State.initial 0) ⟨0, [], none⟩ 0).2.history.length ≤ 20)
    ∧ (c6_snaps.foldl
        (fun s snap => (InsightsService.analyze s snap snap.timestamp).2)
        (InsightsService.State.initial 0)).history
      = (c6_snaps.drop 5).map InsightsService.buildEntry :=
  ⟨c6_history_fifo.1 _ _ 0 (by decide),
   c6_history_fifo.2 0 c6_snaps (by decide)⟩

/-! ## Claim C4: distinctness of model ids in a parsed snapshot -/

/-- The identifier `parseResponse` assigns to a raw entry
(`m.modelOrAlias?.model || 'unknown'`), restated for the amended claim. -/
def rawModelId (m : RawModelConfig) : String :=
  match m.modelOrAlias.bind (fun a => a.model) with
  | some s => if s = "" then "unknown" else s
  | none => "unknown"

/-- C4 counterexample input: a raw entry with id "m" and quota info. -/
def c4_rawDup : RawModelConfig :=
  { label := "A"
    modelOrAlias := some { model := some "m" }
    quotaInfo := some { remainingFraction := some 1, resetTime := none } }

/-- C4 counterexample input: a response listing the same raw entry twice. -/
def c4_respDup : ServerUserStatusResponse :=
  ⟨some { planStatus := none
          cascadeModelConfigData := some ⟨some [c4_rawDup, c4_rawDup]⟩ }⟩

/-- Counterexample to C4 as stated: `parseResponse` never deduplicates, so
a response carrying two raw entries with the same model identifier yields
a snapshot whose modelIds are "m", "m" — not pairwise distinct. -/
theorem c4_counterexample :
    ¬ (∀ (now : ℤ) (data : ServerUserStatusResponse) (snap : QuotaSnapshot),
        QuotaService.parseResponse now data = Except.ok snap →
        (snap.models.map ModelQuota.modelId).Nodup) := by
  intro h
  have h2 := h 0 c4_respDup
    ⟨0, [QuotaService.parseModelEntry 0 c4_rawDup ⟨some 1, none⟩,
         QuotaService.parseModelEntry 0 c4_rawDup ⟨some 1, none⟩], none⟩ rfl
  simp [QuotaService.parseModelEntry, c4_rawDup] at h2

/-- Helper: the model ids produced by the parsing `filterMap` are exactly
the effective raw identifiers of the entries that carry quota info. -/
lemma parse_map_modelId (now : ℤ) (l : List RawModelConfig) :
    ((l.filterMap (fun m => m.quotaInfo.map (QuotaService.parseModelEntry now m))).map
        ModelQuota.modelId)
      = (l.filter (fun m => m.quotaInfo.isSome)).map rawModelId := by
  induction l with
  | nil => rfl
  | cons m ms ih =>
    rcases hq : m.quotaInfo with _ | qi
    · simpa [List.filterMap_cons, List.filter_cons, hq] using ih
    · have hid : (QuotaService.parseModelEntry now m qi).modelId = rawModelId m := by
        simp only [QuotaService.parseModelEntry, rawModelId]
      simp [List.filterMap_cons, List.filter_cons, hq, hid, ih]

/-- C4 as amended: the modelIds of a parsed snapshot are exactly the
effective identifiers (`modelOrAlias.model`, nonempty, else "unknown") of
the raw entries that carry quota info, in order; they are pairwise
distinct whenever those effective identifiers are pairwise distinct (the
parser itself never deduplicates). -/
theorem c4_model_ids (now : ℤ) (data : ServerUserStatusResponse)
    (us : RawUserStatus) (snap : QuotaSnapshot)
    (hus : data.userStatus = some us)
    (h : QuotaService.parseResponse now data = Except.ok snap) :
    (snap.models.map ModelQuota.modelId
      = (((us.cascadeModelConfigData.bind (fun d => d.clientModelConfigs)).getD []).filter
          (fun m => m.quotaInfo.isSome)).map rawModelId)
    ∧ (((((us.cascadeModelConfigData.bind (fun d => d.clientModelConfigs)).getD []).filter
          (fun m => m.quotaInfo.isSome)).map rawModelId).Nodup →
        (snap.models.map ModelQuota.modelId).Nodup) := by
  rw [QuotaService.parseResponse, hus] at h
  have hsnap := Except.ok.inj h
  constructor
  · rw [← hsnap]
    exact parse_map_modelId now _
  · intro hnd
    rw [← hsnap]
    rw [parse_map_modelId now _]
    exact hnd

/-- C4 witness input: two raw entries with distinct ids "a" and "b". -/
def c4_cfgA : RawModelConfig :=
  { label := "A", modelOrAlias := some { model := some "a" }
    quotaInfo := some { remainingFraction := some 1, resetTime := none } }

/-- C4 witness input: the second raw entry. -/
def c4_cfgB : RawModelConfig :=
  { label := "B", modelOrAlias := some { model := some "b" }
    quotaInfo := some { remainingFraction := some 1, resetTime := none } }

/-- C4 witness input: the raw user status listing the two entries. -/
def c4_us2 : RawUserStatus :=
  { planStatus := none, cascadeModelConfigData := some ⟨some [c4_cfgA, c4_cfgB]⟩ }

/-- Witness for C4 (amended) at a concrete response with distinct raw ids
"a" and "b": parsing succeeds and the snapshot's modelIds are pairwise
distinct. -/
theorem c4_model_ids_witness :
    QuotaService.parseResponse 0 ⟨some c4_us2⟩
      = Except.ok ⟨0, [QuotaService.parseModelEntry 0 c4_cfgA ⟨some 1, none⟩,
                       QuotaService.parseModelEntry 0 c4_cfgB ⟨some 1, none⟩], none⟩
    ∧ ((QuotaSnapshot.mk 0 [QuotaService.parseModelEntry 0 c4_cfgA ⟨some 1, none⟩,
                            QuotaService.parseModelEntry 0 c4_cfgB ⟨some 1, none⟩]
          none).models.map ModelQuota.modelId).Nodup :=
  ⟨rfl,
   (c4_model_ids 0 ⟨some c4_us2⟩ c4_us2 _ rfl rfl).2 (by decide)⟩

/-! ## Shared facts about `analyze` -/

/-- Helper: the enriched model list of `analyze` is the sorted per-model
analysis of the snapshot's models. -/
lemma analyze_fst_models (s : InsightsService.State) (snap : QuotaSnapshot) (now : ℤ) :
    (InsightsService.analyze s snap now).1.modelsWithInsights
      = InsightsService.sortModels
          (InsightsService.analyzeModels (InsightsService.recordSnapshot s.history snap)
            (InsightsService.initSessionStart s.sessionStartQuotas snap) now snap
            s.lastActiveModelId snap.models).1 := rfl

/-- Helper: sorting permutes the enriched models. -/
lemma sortModels_perm (l : List ModelWithInsights) :
    (InsightsService.sortModels l).Perm l :=
  List.perm_insertionSort InsightsService.modelLe l

open InsightsService in
/-- Helper: every member of the analysis loop's output is the analysis of
one model of the processed list under some intermediate remembered id. -/
lemma mem_analyzeModels (hist : List HistoryEntry) (quotas : List (String × ℚ))
    (now : ℤ) (snap : QuotaSnapshot) :
    ∀ (ms : List ModelQuota) (lastActive : Option String) (em : ModelWithInsights),
      em ∈ (analyzeModels hist quotas now snap lastActive ms).1 →
      ∃ m lastActive', m ∈ ms ∧ em = (analyzeModel hist quotas lastActive' now m snap).1 := by
  intro ms
  induction ms with
  | nil => intro lastActive em hm; simp [analyzeModels] at hm
  | cons m ms ih =>
    intro lastActive em hm
    rw [analyzeModels] at hm
    rcases List.mem_cons.mp hm with h | h
    · exact ⟨m, lastActive, List.mem_cons_self m ms, h⟩
    · obtain ⟨m', la', hm', he⟩ := ih _ em h
      exact ⟨m', la', List.mem_cons_of_mem m hm', he⟩

/-! ## Claim C2: exhaustion prediction and labels -/

open InsightsService in
/-- Helper: label and prediction facts for the output of one
`analyzeModel` call. -/
lemma analyzeModel_c2_props (hist : List HistoryEntry) (quotas : List (String × ℚ))
    (lastActive : Option String) (now : ℤ) (m : ModelQuota) (snap : QuotaSnapshot) :
    ((analyzeModel hist quotas lastActive now m snap).1.remainingPercent = 0 →
      (analyzeModel hist quotas lastActive now m snap).1.insights.predictedExhaustionLabel
        = if (analyzeModel hist quotas lastActive now m snap).1.isExhausted then "Exhausted"
          else "Safe")
    ∧ ((analyzeModel hist quotas lastActive now m snap).1.insights.burnRate = 0
        ∧ (analyzeModel hist quotas lastActive now m snap).1.remainingPercent = 50
        ∧ (analyzeModel hist quotas lastActive now m snap).1.isExhausted = false →
        (analyzeModel hist quotas lastActive now m snap).1.insights.predictedExhaustionLabel
          = "Safe")
    ∧ (0 < (analyzeModel hist quotas lastActive now m snap).1.insights.burnRate
        ∧ 0 < (analyzeModel hist quotas lastActive now m snap).1.remainingPercent →
        (analyzeModel hist quotas lastActive now m snap).1.insights.predictedExhaustion
          = some ((now : ℚ)
              + (analyzeModel hist quotas lastActive now m snap).1.remainingPercent
                / (analyzeModel hist quotas lastActive now m snap).1.insights.burnRate
                * (60 * 60 * 1000))) := by
  simp only [analyzeModel]
  refine ⟨?_, ?_, ?_⟩
  · intro h0
    rw [if_neg (by rw [h0]; simp)]
    cases hm : m.isExhausted <;> simp [hm]
  · rintro ⟨hb, -, he⟩
    rw [if_neg (by rw [hb]; simp), he]
    simp
  · rintro ⟨hb, hp⟩
    rw [if_pos ⟨hb, hp⟩]

open InsightsService in
/-- C2 as amended: for every resource of an analyzed snapshot, at
`remainingPercent = 0` the label is "Exhausted" when the resource
`isExhausted` and "Safe" otherwise (regardless of burn rate); with burn
rate 0, percent 50 and not exhausted the label is "Safe"; and with
positive burn rate and positive percent the prediction is the analysis
time plus `remainingPercent / burnRate` hours. -/
theorem c2_exhaustion_prediction (s : InsightsService.State) (snap : QuotaSnapshot) (now : ℤ) :
    ∀ em ∈ (analyze s snap now).1.modelsWithInsights,
      (em.remainingPercent = 0 →
        em.insights.predictedExhaustionLabel
          = if em.isExhausted then "Exhausted" else "Safe")
      ∧ (em.insights.burnRate = 0 ∧ em.remainingPercent = 50 ∧ em.isExhausted = false →
          em.insights.predictedExhaustionLabel = "Safe")
      ∧ (0 < em.insights.burnRate ∧ 0 < em.remainingPercent →
          em.insights.predictedExhaustion
            = some ((now : ℚ) + em.remainingPercent / em.insights.burnRate * (60 * 60 * 1000))) := by
  intro em hm
  rw [analyze_fst_models, (sortModels_perm _).mem_iff] at hm
  obtain ⟨m, la', -, he⟩ := mem_analyzeModels _ _ now snap snap.models s.lastActiveModelId em hm
  rw [he]
  exact analyzeModel_c2_props _ _ la' now m snap

/-- C2 counterexample input: a model at 0 percent that is not exhausted
(remaining fraction 1/250 rounds to percent 0 but is nonzero). -/
def c2x_model : ModelQuota :=
  { label := "A", modelId := "A", remainingFraction := 1 / 250, remainingPercent := 0
    isExhausted := false, resetTime := 0, timeUntilReset := 0
    timeUntilResetFormatted := "Ready" }

/-- C2 counterexample input: the snapshot carrying that model. -/
def c2x_snap : QuotaSnapshot := ⟨0, [c2x_model], none⟩

/-- C2 counterexample enriched model: the analysis of that model on a
fresh engine. -/
def c2x_em : ModelWithInsights :=
  (InsightsService.analyzeModel (InsightsService.recordSnapshot [] c2x_snap)
    (InsightsService.initSessionStart [] c2x_snap) none 0 c2x_model c2x_snap).1

/-- Counterexample to C2 as stated: a resource with `remainingPercent = 0`
but `isExhausted = false` (fraction 1/250) is labelled "Safe", not
"Exhausted". -/
theorem c2_counterexample :
    ¬ (∀ (s : InsightsService.State) (snap : QuotaSnapshot) (now : ℤ),
        ∀ em ∈ (InsightsService.analyze s snap now).1.modelsWithInsights,
          (em.remainingPercent = 0 →
            em.insights.predictedExhaustionLabel = "Exhausted")
          ∧ (em.insights.burnRate = 0 ∧ em.remainingPercent = 50 ∧ em.isExhausted = false →
              em.insights.predictedExhaustionLabel = "Safe")
          ∧ (0 < em.insights.burnRate ∧ 0 < em.remainingPercent →
              em.insights.predictedExhaustion
                = some ((now : ℚ)
                    + em.remainingPercent / em.insights.burnRate * (60 * 60 * 1000)))) := by
  intro h
  have hmem : c2x_em ∈ (InsightsService.analyze (InsightsService.State.initial 0)
      c2x_snap 0).1.modelsWithInsights := List.mem_singleton.mpr rfl
  have h2 := (h (InsightsService.State.initial 0) c2x_snap 0 c2x_em hmem).1 rfl
  exact absurd h2 (by decide)

/-- C2 witness input: a model at 50 percent, not exhausted. -/
def c2_model : ModelQuota :=
  { label := "A", modelId := "A", remainingFraction := 1 / 2, remainingPercent := 50
    isExhausted := false, resetTime := 0, timeUntilReset := 0
    timeUntilResetFormatted := "Ready" }

/-- C2 witness input: the snapshot carrying that model. -/
def c2_snap : QuotaSnapshot := ⟨0, [c2_model], none⟩

/-- C2 witness enriched model: the analysis of that model on a fresh
engine. -/
def c2_em : ModelWithInsights :=
  (InsightsService.analyzeModel (InsightsService.recordSnapshot [] c2_snap)
    (InsightsService.initSessionStart [] c2_snap) none 0 c2_model c2_snap).1

/-- Witness for C2 (amended): on a fresh engine the 50-percent model has
burn rate 0, is not exhausted, and is labelled "Safe". -/
theorem c2_exhaustion_prediction_witness :
    c2_em ∈ (InsightsService.analyze (InsightsService.State.initial 0)
        c2_snap 0).1.modelsWithInsights
    ∧ c2_em.insights.burnRate = 0 ∧ c2_em.remainingPercent = 50 ∧ c2_em.isExhausted = false
    ∧ c2_em.insights.predictedExhaustionLabel = "Safe" := by
  have hmem : c2_em ∈ (InsightsService.analyze (InsightsService.State.initial 0)
      c2_snap 0).1.modelsWithInsights := List.mem_singleton.mpr rfl
  refine ⟨hmem, rfl, rfl, rfl, ?_⟩
  exact (c2_exhaustion_prediction (InsightsService.State.initial 0) c2_snap 0 c2_em hmem).2.1
    ⟨rfl, rfl, rfl⟩

/-! ## Claim C1: active-resource inference -/

open InsightsService in
/-- Activity rule of the amended claim C1, against a given remembered id:
burn rate above 1 %/hour and maximal (ties allowed) over the snapshot's
resources, or being the remembered resource. -/
def activeRule (hist : List HistoryEntry) (snap : QuotaSnapshot)
    (remembered : Option String) (m : ModelQuota) : Prop :=
  (1 < calculateBurnRate hist m.modelId
    ∧ ∀ other ∈ snap.models,
        calculateBurnRate hist other.modelId ≤ calculateBurnRate hist m.modelId)
  ∨ remembered = some m.modelId

instance (hist : List HistoryEntry) (snap : QuotaSnapshot)
    (remembered : Option String) (m : ModelQuota) :
    Decidable (activeRule hist snap remembered m) := by
  unfold activeRule; infer_instance

open InsightsService in
/-- Per-resource active flags of the amended claim C1, threading the
remembered id through the snapshot's resources in processing order: a
resource is flagged exactly by `activeRule` at the current remembered id,
and a flagged resource becomes the remembered one for those after it. -/
def activeFlagsSpec (hist : List HistoryEntry) (snap : QuotaSnapshot) :
    Option String → List ModelQuota → List (String × Bool)
  | _, [] => []
  | remembered, m :: ms =>
    let a : Bool := decide (activeRule hist snap remembered m)
    (m.modelId, a) :: activeFlagsSpec hist snap (if a then some m.modelId else remembered) ms

open InsightsService in
/-- Helper: for a resource of the snapshot, `detectActiveModel` decides
exactly `activeRule`. -/
lemma detectActiveModel_iff (hist : List HistoryEntry) (remembered : Option String)
    (m : ModelQuota) (snap : QuotaSnapshot) (hm : m ∈ snap.models) :
    (detectActiveModel hist remembered m snap = true ↔ activeRule hist snap remembered m) := by
  unfold detectActiveModel activeRule
  by_cases hc : 1 < calculateBurnRate hist m.modelId
      ∧ (snap.models.map (fun x => calculateBurnRate hist x.modelId)).maximum
        = some (calculateBurnRate hist m.modelId)
  · rw [if_pos hc]
    simp only [true_iff]
    left
    refine ⟨hc.1, ?_⟩
    intro other hother
    have hmax := List.maximum_eq_coe_iff.mp hc.2
    exact hmax.2 _ (List.mem_map_of_mem (fun x => calculateBurnRate hist x.modelId) hother)
  · rw [if_neg hc]
    constructor
    · intro hbeq
      right
      simpa using hbeq
    · rintro (⟨h1, hle⟩ | hr)
      · exfalso
        apply hc
        refine ⟨h1, List.maximum_eq_coe_iff.mpr ⟨?_, ?_⟩⟩
        · exact List.mem_map_of_mem (fun x => calculateBurnRate hist x.modelId) hm
        · intro b hb
          obtain ⟨other, hother, rfl⟩ := List.mem_map.mp hb
          exact hle other hother
      · simp [hr]

open InsightsService in
/-- Helper: the `(modelId, isActive)` pairs produced by the analysis loop
are exactly the flags of the amended rule. -/
lemma analyzeModels_flags (hist : List HistoryEntry) (quotas : List (String × ℚ))
    (now : ℤ) (snap : QuotaSnapshot) :
    ∀ (ms : List ModelQuota) (lastActive : Option String), (∀ m ∈ ms, m ∈ snap.models) →
      ((analyzeModels hist quotas now snap lastActive ms).1.map
          (fun em => (em.modelId, em.insights.isActive)))
        = activeFlagsSpec hist snap lastActive ms := by
  intro ms
  induction ms with
  | nil => intro lastActive _; rfl
  | cons m tail ih =>
    intro lastActive h
    have hmm : m ∈ snap.models := h m (List.mem_cons_self m tail)
    have hb : detectActiveModel hist lastActive m snap
        = decide (activeRule hist snap lastActive m) := by
      by_cases hr : activeRule hist snap lastActive m
      · rw [(detectActiveModel_iff hist lastActive m snap hmm).mpr hr, decide_eq_true hr]
      · rw [decide_eq_false hr]
        rcases hdet : detectActiveModel hist lastActive m snap with _ | _
        · rfl
        · exact absurd ((detectActiveModel_iff hist lastActive m snap hmm).mp hdet) hr
    simp only [analyzeModels, activeFlagsSpec, List.map_cons, List.cons.injEq]
    constructor
    · show ((analyzeModel hist quotas lastActive now m snap).1.modelId,
          detectActiveModel hist lastActive m snap)
          = (m.modelId, decide (activeRule hist snap lastActive m))
      rw [hb]
      rfl
    · show ((analyzeModels hist quotas now snap
          (if detectActiveModel hist lastActive m snap then some m.modelId else lastActive)
          tail).1.map (fun em => (em.modelId, em.insights.isActive)))
          = activeFlagsSpec hist snap
              (if decide (activeRule hist snap lastActive m) = true then some m.modelId
               else lastActive) tail
      rw [hb]
      exact ih _ (fun x hx => h x (List.mem_cons_of_mem m hx))

open InsightsService in
/-- C1 as amended: in every analyze call, the `(modelId, isActive)` pairs
of the analysed resources (before the final re-sort, which is a
permutation of them) are exactly those of the rule: a resource is active
iff its burn rate exceeds 1.0 %/hour and is maximal — ties allowed —
among all resources of the snapshot, or its id equals the remembered
active id at the moment it is processed, where the remembered id starts
from the previous analyze call and is updated to each resource found
active as the snapshot's resources are processed in order. -/
theorem c1_active_inference (s : InsightsService.State) (snap : QuotaSnapshot) (now : ℤ) :
    ((analyzeModels (recordSnapshot s.history snap)
        (initSessionStart s.sessionStartQuotas snap) now snap
        s.lastActiveModelId snap.models).1.map
        (fun em => (em.modelId, em.insights.isActive)))
      = activeFlagsSpec (recordSnapshot s.history snap) snap s.lastActiveModelId snap.models
    ∧ ((analyze s snap now).1.modelsWithInsights).Perm
        (analyzeModels (recordSnapshot s.history snap)
          (initSessionStart s.sessionStartQuotas snap) now snap
          s.lastActiveModelId snap.models).1 := by
  constructor
  · exact analyzeModels_flags _ _ now snap snap.models s.lastActiveModelId (fun m hm => hm)
  · rw [analyze_fst_models]
    exact sortModels_perm _

open InsightsService in
/-- Helper: burn rate over a two-entry history with the resource present
in both entries. -/
lemma calculateBurnRate_two (e1 e2 : HistoryEntry) (modelId : String) (p q : ℚ)
    (h1 : mapGet e1.models modelId = some p) (h2 : mapGet e2.models modelId = some q) :
    calculateBurnRate [e1, e2] modelId
      = if (((e2.timestamp - e1.timestamp : ℤ) : ℚ) / (1000 * 60 * 60)) ≤ 0 then 0
        else max 0 ((p - q) / (((e2.timestamp - e1.timestamp : ℤ) : ℚ) / (1000 * 60 * 60))) := by
  have hh : ([e1, e2] : List HistoryEntry).head? = some e1 := rfl
  have hl : ([e1, e2] : List HistoryEntry).getLast? = some e2 := rfl
  simp only [calculateBurnRate, List.length_cons, List.length_nil, hh, hl, h1, h2]
  norm_num

/-- C1 counterexample input: the earlier history entry (both resources at
80 percent). -/
def c1_e0 : HistoryEntry := ⟨0, [("A", 80), ("B", 80)]⟩

/-- C1 counterexample input: engine state remembering that entry and no
active resource. -/
def c1_state : InsightsService.State := ⟨[c1_e0], 0, [], none⟩

/-- C1 counterexample input: resource "A" at 70 percent. -/
def c1_modelA : ModelQuota :=
  { label := "A", modelId := "A", remainingFraction := 7 / 10, remainingPercent := 70
    isExhausted := false, resetTime := 0, timeUntilReset := 0
    timeUntilResetFormatted := "Ready" }

/-- C1 counterexample input: resource "B" at 70 percent. -/
def c1_modelB : ModelQuota :=
  { label := "B", modelId := "B", remainingFraction := 7 / 10, remainingPercent := 70
    isExhausted := false, resetTime := 0, timeUntilReset := 0
    timeUntilResetFormatted := "Ready" }

/-- C1 counterexample input: the snapshot one hour later, both resources
having fallen from 80 to 70 percent (burn rates tie at 10 %/hour). -/
def c1_snap : QuotaSnapshot := ⟨3600000, [c1_modelA, c1_modelB], none⟩

/-- C1 counterexample history: the history during that analyze call. -/
def c1_hist : List HistoryEntry :=
  [c1_e0, ⟨3600000, [("A", 70), ("B", 70)]⟩]

/-- C1 counterexample enriched model: the analysis of resource "A". -/
def c1_emA : ModelWithInsights :=
  (InsightsService.analyzeModel (InsightsService.recordSnapshot c1_state.history c1_snap)
    (InsightsService.initSessionStart c1_state.sessionStartQuotas c1_snap)
    c1_state.lastActiveModelId 0 c1_modelA c1_snap).1

/-- Counterexample to C1 as stated: with both resources' burn rates tied
at 10 %/hour (above the 1 %/hour threshold) and nothing remembered as
active, the code marks "A" active (`burnRate === max` allows ties), while
the claim's strictly-maximal rule marks nothing active. -/
theorem c1_counterexample :
    ¬ (∀ (s : InsightsService.State) (snap : QuotaSnapshot) (now : ℤ),
        ∀ em ∈ (InsightsService.analyze s snap now).1.modelsWithInsights,
          (em.insights.isActive = true ↔
            ((1 < InsightsService.calculateBurnRate
                (InsightsService.recordSnapshot s.history snap) em.modelId
              ∧ ∀ other ∈ snap.models, other.modelId ≠ em.modelId →
                  InsightsService.calculateBurnRate
                      (InsightsService.recordSnapshot s.history snap) other.modelId
                    < InsightsService.calculateBurnRate
                        (InsightsService.recordSnapshot s.history snap) em.modelId)
             ∨ s.lastActiveModelId = some em.modelId))) := by
  intro h
  have hh : InsightsService.recordSnapshot c1_state.history c1_snap = c1_hist := rfl
  have hrA : InsightsService.calculateBurnRate c1_hist "A" = 10 := by
    rw [show InsightsService.calculateBurnRate c1_hist "A"
        = InsightsService.calculateBurnRate [c1_e0, ⟨3600000, [("A", 70), ("B", 70)]⟩] "A"
        from rfl]
    rw [calculateBurnRate_two c1_e0 ⟨3600000, [("A", 70), ("B", 70)]⟩ "A" 80 70 rfl rfl]
    norm_num [c1_e0]
  have hrB : InsightsService.calculateBurnRate c1_hist "B" = 10 := by
    rw [show InsightsService.calculateBurnRate c1_hist "B"
        = InsightsService.calculateBurnRate [c1_e0, ⟨3600000, [("A", 70), ("B", 70)]⟩] "B"
        from rfl]
    rw [calculateBurnRate_two c1_e0 ⟨3600000, [("A", 70), ("B", 70)]⟩ "B" 80 70 rfl rfl]
    norm_num [c1_e0]
  have hmem : c1_emA ∈ (InsightsService.analyze c1_state c1_snap 0).1.modelsWithInsights := by
    rw [analyze_fst_models]
    refine ((sortModels_perm _).mem_iff).mpr ?_
    exact List.mem_cons_self _ _
  have hactive : c1_emA.insights.isActive = true := by
    show InsightsService.detectActiveModel (InsightsService.recordSnapshot c1_state.history c1_snap)
        c1_state.lastActiveModelId c1_modelA c1_snap = true
    have hcond : 1 < InsightsService.calculateBurnRate c1_hist "A"
        ∧ (c1_snap.models.map
            (fun m => InsightsService.calculateBurnRate c1_hist m.modelId)).maximum
          = some (InsightsService.calculateBurnRate c1_hist "A") := by
      refine ⟨by rw [hrA]; norm_num, ?_⟩
      rw [show c1_snap.models = [c1_modelA, c1_modelB] from rfl]
      simp only [List.map_cons, List.map_nil,
        show c1_modelA.modelId = "A" from rfl, show c1_modelB.modelId = "B" from rfl,
        hrA, hrB]
      decide
    unfold InsightsService.detectActiveModel
    rw [hh, show c1_modelA.modelId = "A" from rfl, if_pos hcond]
  have h2 := (h c1_state c1_snap 0 c1_emA hmem).mp hactive
  rw [hh, show c1_emA.modelId = "A" from rfl] at h2
  rcases h2 with ⟨-, hstrict⟩ | hrem
  · have hBA := hstrict c1_modelB (by simp [c1_snap]) (by decide)
    rw [show c1_modelB.modelId = "B" from rfl, hrA, hrB] at hBA
    exact absurd hBA (by norm_num)
  · exact absurd hrem (by decide)

/-! ## Claim C10: missing csrf-token flag on the two platform parsers -/

namespace Platform

/-- Helper: `containsLit` decides the infix relation. -/
lemma containsLit_iff (pat : List Char) : ∀ cs : List Char,
    (containsLit pat cs = true ↔ pat <:+: cs) := by
  intro cs
  induction cs with
  | nil =>
    rw [containsLit, List.isEmpty_iff, List.infix_nil]
  | cons c cs ih =>
    rw [containsLit, Bool.or_eq_true, List.isPrefixOf_iff_prefix, ih, List.infix_cons_iff]

/-- Helper: a successful anchored flag match starts with the flag literal. -/
lemma tryFlagAt_some_matchLit {ci : Bool} {flag : List Char} {tok : Char → Bool}
    {cs v : List Char} (h : tryFlagAt ci flag tok cs = some v) :
    matchLit ci flag cs = true := by
  by_cases hm : matchLit ci flag cs = true
  · exact hm
  · rw [tryFlagAt, if_neg hm] at h
    exact absurd h (by simp)

/-- Helper: a case-sensitive literal match is a prefix. -/
lemma matchLit_false_starts : ∀ {flag cs : List Char},
    matchLit false flag cs = true → flag <+: cs := by
  intro flag
  induction flag with
  | nil => intro cs _; exact List.nil_prefix
  | cons p ps ih =>
    intro cs h
    cases cs with
    | nil => exact absurd h (by simp [matchLit])
    | cons c cs =>
      simp only [matchLit, Bool.false_eq_true, if_false, Bool.and_eq_true, beq_iff_eq] at h
      obtain ⟨t, ht⟩ := ih h.2
      exact ⟨t, by rw [List.cons_append, ht, h.1]⟩

/-- Helper: a case-insensitive literal match is a prefix after lowering. -/
lemma matchLit_true_lower : ∀ {flag cs : List Char},
    matchLit true flag cs = true → flag.map Char.toLower <+: cs.map Char.toLower := by
  intro flag
  induction flag with
  | nil => intro cs _; exact List.nil_prefix
  | cons p ps ih =>
    intro cs h
    cases cs with
    | nil => exact absurd h (by simp [matchLit])
    | cons c cs =>
      simp only [matchLit, if_true, Bool.and_eq_true, beq_iff_eq] at h
      obtain ⟨t, ht⟩ := ih h.2
      exact ⟨t, by rw [List.map_cons, List.cons_append, ht, h.1, List.map_cons]⟩

/-- Helper: the case-sensitive scanner finds nothing when the flag does
not occur. -/
lemma scanFlag_false_none {flag : List Char} {tok : Char → Bool} :
    ∀ {cs : List Char}, ¬ (flag <:+: cs) → scanFlag false flag tok cs = none := by
  intro cs
  induction cs with
  | nil => intro _; rfl
  | cons c cs ih =>
    intro h
    rcases ht : tryFlagAt false flag tok (c :: cs) with _ | v
    · rw [scanFlag, ht]
      exact ih (fun hin => h (List.infix_cons_iff.mpr (Or.inr hin)))
    · exact absurd ((matchLit_false_starts (tryFlagAt_some_matchLit ht)).isInfix) h

/-- Helper: the case-insensitive scanner finds nothing when the lowered
flag does not occur in the lowered input. -/
lemma scanFlag_true_none {flag : List Char} {tok : Char → Bool} :
    ∀ {cs : List Char},
      ¬ (flag.map Char.toLower <:+: cs.map Char.toLower) →
      scanFlag true flag tok cs = none := by
  intro cs
  induction cs with
  | nil => intro _; rfl
  | cons c cs ih =>
    intro h
    rcases ht : tryFlagAt true flag tok (c :: cs) with _ | v
    · rw [scanFlag, ht]
      exact ih (fun hin => h (by
        rw [List.map_cons]
        exact List.infix_cons_iff.mpr (Or.inr hin)))
    · exact absurd ((matchLit_true_lower (tryFlagAt_some_matchLit ht)).isInfix) h

/-- Helper: trimming yields an infix of the input. -/
lemma trimChars_within (l : List Char) : trimChars l <:+: l := by
  have h1 : (l.dropWhile isWsChar) <:+ l := List.dropWhile_suffix _
  have h2 : ((l.dropWhile isWsChar).reverse.dropWhile isWsChar)
      <:+ (l.dropWhile isWsChar).reverse := List.dropWhile_suffix _
  have h3 : ((l.dropWhile isWsChar).reverse.dropWhile isWsChar).reverse
      <+: (l.dropWhile isWsChar) := by
    have := List.reverse_prefix.mpr h2
    rwa [List.reverse_reverse] at this
  exact (h3.isInfix).trans h1.isInfix

end Platform

open Platform in
/-- C10: a Unix process line carrying the extension-port flag but no
csrf-token flag still parses to a match, with the empty csrf token, and
any quota client configured with that match's token is unconfigured;
whereas the Windows record parser rejects every record list whose command
lines lack the (case-insensitive) csrf-token flag. -/
theorem c10_missing_token :
    (∀ line : List Char, ('
' ∉ line) →
        containsLit extPortFlag line = true →
        containsLit csrfFlag line = false →
        unixParseProcessInfo line = some (unixParseLine line)
        ∧ (unixParseLine line).csrfToken = ""
        ∧ ∀ (s : QuotaService.State) (port : ℤ),
            QuotaService.isConfigured
              (QuotaService.setConnection s port (unixParseLine line).csrfToken) = false)
    ∧ (∀ records : List WinProcRecord,
        (∀ r ∈ records, ∀ c, r.CommandLine = some c →
          containsLit csrfFlag (c.map Char.toLower) = false) →
        windowsParseRecords records = none) := by
  constructor
  · intro line hnl hext hcsrf
    have hnotin : ¬ (csrfFlag <:+: line) := by
      rw [← containsLit_iff]
      simp [hcsrf]
    have htok : (unixParseLine line).csrfToken = "" := by
      have hnone : ∀ n, scanFlag false csrfFlag unixTokChar (trimChars (line.drop n)) = none :=
        fun n => scanFlag_false_none (fun hin =>
          hnotin (hin.trans ((trimChars_within _).trans (List.drop_suffix n line).isInfix)))
      simp only [unixParseLine, hnone]
    refine ⟨?_, htok, ?_⟩
    · rw [unixParseProcessInfo, splitLines,
        List.splitOnP_eq_single _ _ (fun x hx => by
          simp only [Bool.not_eq_true, beq_eq_false_iff_ne]
          intro hxeq
          exact hnl (hxeq ▸ hx)),
        List.find?_cons]
      simp [hext]
    · intro s port
      rw [htok]
      simp [QuotaService.isConfigured, QuotaService.setConnection]
  · intro records h
    rw [windowsParseRecords]
    by_cases hrec : records.isEmpty = true
    · rw [if_pos hrec]
    · rw [if_neg hrec]
      rcases hag : records.filter (fun r =>
          match r.CommandLine with
          | some c => !c.isEmpty && isAntigravityProcess c
          | none => false) with _ | ⟨r, rest⟩
      · rw [hag]
      · rw [hag]
        have hrmem := List.mem_filter.mp (hag ▸ List.mem_cons_self r rest)
        rcases hcl : r.CommandLine with _ | c
        · rw [hcl] at hrmem
          exact absurd hrmem.2 (by simp)
        · have hnone : scanFlag true csrfFlag winTokChar c = none := by
            apply scanFlag_true_none
            rw [show csrfFlag.map Char.toLower = csrfFlag by decide, ← containsLit_iff]
            simp [h r hrmem.1 c hcl]
          dsimp only
          rcases hpid : r.ProcessId with _ | pid
          · rfl
          · dsimp only
            by_cases hz : pid = 0
            · rw [if_pos (by simp [hz])]
            · rw [if_neg (by simp [hz]), hcl, Option.getD_some, hnone]

/-- C10 witness input: a Unix process line with the extension-port flag
and no csrf-token flag. -/
def c10_line : List Char :=
  "1234 /opt/antigravity/ls --extension_server_port 42100".toList

/-- C10 witness input: a Windows command line with the extension-port flag
and no csrf-token flag. -/
def c10_winCmd : List Char :=
  "C:\\antigravity\\ls.exe --extension_server_port=42100".toList

/-- Witness for C10 at those inputs: the Unix parser returns a match with
the empty token, that token leaves the quota client unconfigured, and the
Windows record parser rejects the corresponding record. -/
theorem c10_missing_token_witness :
    (Platform.unixParseProcessInfo c10_line = some (Platform.unixParseLine c10_line)
      ∧ (Platform.unixParseLine c10_line).csrfToken = ""
      ∧ QuotaService.isConfigured
          (QuotaService.setConnection QuotaService.State.initial 42100
            (Platform.unixParseLine c10_line).csrfToken) = false)
    ∧ Platform.windowsParseRecords [⟨some 1234, some c10_winCmd⟩] = none := by
  constructor
  · have h := c10_missing_token.1 c10_line (by decide) (by decide) (by decide)
    exact ⟨h.1, h.2.1, h.2.2 QuotaService.State.initial 42100⟩
  · refine c10_missing_token.2 [⟨some 1234, some c10_winCmd⟩] ?_
    intro r hr c hc
    rw [List.mem_singleton] at hr
    subst hr
    obtain rfl : c10_winCmd = c := Option.some.inj hc
    decide

end QuotaViewer
